import Mathlib

/-!
Verification of the artifact-staging and work-submission subsystem of
killerbeez (`src/python/manager/lib/boinc.py`).

The Python module is shallowly embedded:

* byte strings (`bytes`) become `List Nat`;
* the filesystem becomes an association list from absolute path (`String`)
  to file records (`FSFile`); every operation threads the filesystem
  explicitly and a Python `raise` becomes `Except.error`;
* the external placement oracle `bin/dir_hier_path` (invoked by
  `dir_hier_path`) becomes an injected deterministic function
  `oracle : String → String` from a logical filename to an absolute path;
* `hashlib.md5(contents).hexdigest()` becomes an injected function
  `hash : List Nat → String` (the digest itself is an external primitive;
  all claims are parametric in it);
* the external tool `bin/create_work` becomes an injected function from its
  argument list to an exit code plus captured combined output (`ToolResult`);
  the output is modelled as text, faithful for the ASCII protocol the code
  parses.

The exception classes `errors.InternalError` and `errors.BoincError`
referenced by the module become the two constructors of `Err`.
-/

set_option autoImplicit false

namespace Killerbeez

/-- A file in the modelled filesystem: its byte content and its permission
mode. `mode = none` models the process-default mode a fresh `open(.., 'wb')`
leaves behind; `os.chmod` sets it to `some m`. -/
structure FSFile where
  content : List Nat
  mode : Option Nat
  deriving DecidableEq, Repr

/-- The filesystem: an association list from absolute path to file. -/
abbrev FS := List (String × FSFile)

/-- Look up the file stored at path `p` (`os.path.exists` / `open(..,'rb')`). -/
def fsLookup (fs : FS) (p : String) : Option FSFile :=
  match fs with
  | [] => none
  | (q, f) :: rest => if q = p then some f else fsLookup rest p

/-- `open(p, 'wb'); write(c)`: truncate/create the file at `p` with content
`c`. Creating a fresh file leaves the default mode (`none`); overwriting
keeps the existing mode. -/
def fsWrite (fs : FS) (p : String) (c : List Nat) : FS :=
  match fs with
  | [] => [(p, ⟨c, none⟩)]
  | (q, f) :: rest => if q = p then (p, ⟨c, f.mode⟩) :: rest else (q, f) :: fsWrite rest p c

/-- `os.chmod(p, m)`. In `stage_file` it is only ever called right after the
file was written, so the missing-path case is never exercised. -/
def fsChmod (fs : FS) (p : String) (m : Nat) : FS :=
  match fs with
  | [] => []
  | (q, f) :: rest => if q = p then (p, ⟨f.content, some m⟩) :: rest else (q, f) :: fsChmod rest p m

/-- The two exception classes raised by the module: `errors.InternalError`
and `errors.BoincError`, each carrying its message. -/
inductive Err where
  | internalError (msg : String)
  | boincError (msg : String)
  deriving DecidableEq, Repr

/-- The Python class of an `Err` value, as a name. -/
def Err.kind : Err → String
  | .internalError _ => "InternalError"
  | .boincError _ => "BoincError"

/-- `_filename_for_contents(prefix, contents)`:
`f'{prefix}_{file_hash}'` with `file_hash = md5(contents).hexdigest()`
(the digest is the injected `hash`). -/
def _filename_for_contents (hash : List Nat → String) (pre : String)
    (contents : List Nat) : String :=
  pre ++ "_" ++ hash contents

/-- `stage_file(prefix, contents)`. Computes the content-derived filename,
resolves it through the placement oracle (`dir_hier_path`), and then:
if a file exists at the resolved path, compares it byte-for-byte with
`contents`, raising `InternalError` on a mismatch and returning the path
unchanged on a match; otherwise writes `contents`, chmods the file to
`0o755` (= 493) and returns the path. -/
def stage_file (hash : List Nat → String) (oracle : String → String)
    (fs : FS) (pre : String) (contents : List Nat) : Except Err (String × FS) :=
  let filename := _filename_for_contents hash pre contents
  let abspath := oracle filename
  match fsLookup fs abspath with
  | some existing =>
    if existing.content ≠ contents then
      .error (.internalError ("Attempted to stage " ++ filename ++ " with differing contents"))
    else
      .ok (abspath, fs)
  | none =>
    .ok (abspath, fsChmod (fsWrite fs abspath contents) abspath 493)

/-- `get_filename(prefix, hash)`: `dir_hier_path(f'{prefix}_{hash}')`.
Note that it applies the placement oracle, so it returns the absolute
path of the named file, not the bare filename. -/
def get_filename (oracle : String → String) (pre : String) (hash : String) : String :=
  oracle (pre ++ "_" ++ hash)

/-- The suffix of `s` that follows the last occurrence of `sep` in `s`, or
`none` when `sep` does not occur. Occurrences starting later take priority,
matching Python's `str.rpartition` / `str.rfind`. -/
def afterLastSep (sep : List Char) : List Char → Option (List Char)
  | [] => none
  | c :: rest =>
    match afterLastSep sep rest with
    | some r => some r
    | none =>
      if sep.isPrefixOf (c :: rest) then some ((c :: rest).drop sep.length) else none

/-- The marker segment used by `clean_download_path`. -/
def marker : List Char := "/download/".data

/-- `clean_download_path(path)`: `path.rpartition('/download/')[2]`.
Python's `rpartition` splits at the last occurrence of the separator and,
when the separator is absent, puts the whole input in the third slot. -/
def clean_download_path (path : String) : String :=
  match afterLastSep marker path.data with
  | some r => ⟨r⟩
  | none => path

/-- `os.path.basename(p)` for POSIX paths: everything after the last
slash, or `p` itself if it has no slash. -/
def basename (p : String) : String :=
  match afterLastSep ['/'] p.data with
  | some r => ⟨r⟩
  | none => p

/-- `cmdline.encode('utf8')` as a byte list. -/
def encodeUtf8 (s : String) : List Nat :=
  s.toUTF8.toList.map (fun b => b.toNat)

/-- Python truthiness of an optional string argument (`None` and `''` are
falsy). -/
def truthyStr : Option String → Bool
  | none => false
  | some s => !(s.isEmpty)

/-- Python truthiness of an optional bytes argument (`None` and `b''` are
falsy). -/
def truthyBytes : Option (List Nat) → Bool
  | none => false
  | some b => !(b.isEmpty)

/-- Result of running the external `bin/create_work` tool: its exit code
and the captured combined stdout+stderr. -/
structure ToolResult where
  exitCode : Nat
  output : String
  deriving DecidableEq, Repr

/-- `bytes.splitlines()` restricted to the line boundaries `\n`, `\r\n`
and `\r`; a trailing line terminator does not produce a final empty line.
`acc` holds the current line, reversed. -/
def splitLinesGo : List Char → List Char → List (List Char)
  | [], acc => if acc.isEmpty then [] else [acc.reverse]
  | '\r' :: '\n' :: rest, acc => acc.reverse :: splitLinesGo rest []
  | '\n' :: rest, acc => acc.reverse :: splitLinesGo rest []
  | '\r' :: rest, acc => acc.reverse :: splitLinesGo rest []
  | c :: rest, acc => splitLinesGo rest (c :: acc)

/-- `result.splitlines()`. -/
def splitLines (s : List Char) : List (List Char) :=
  splitLinesGo s []

/-- The literal head of the pattern `created workunit; .*, ID ([0-9]+)`. -/
def createdLit : List Char := "created workunit; ".data

/-- The literal `, ID ` of the pattern. -/
def idLit : List Char := ", ID ".data

/-- Backtracking search of the greedy `.*, ID ([0-9]+)` tail: the suffix
starting right after the last occurrence of `, ID ` that is immediately
followed by a digit, or `none` when no such occurrence exists. -/
def findIDSuffix : List Char → Option (List Char)
  | [] => none
  | c :: rest =>
    match findIDSuffix rest with
    | some r => some r
    | none =>
      if idLit.isPrefixOf (c :: rest) then
        match (c :: rest).drop idLit.length with
        | d :: ds => if d.isDigit then some (d :: ds) else none
        | [] => none
      else none

/-- `int()` of a decimal digit string. -/
def parseDigits (l : List Char) : Nat :=
  l.foldl (fun acc c => 10 * acc + (c.toNat - 48)) 0

/-- `re.match(rb'created workunit; .*, ID ([0-9]+)', line)`, returning
`int(match[1])` on a match: the line must start with the literal
`created workunit; `; the greedy `.*` places the match of `, ID ` at the
last position followed by at least one digit, and group 1 is the maximal
digit run there. -/
def matchCreatedLine (l : List Char) : Option Nat :=
  if createdLit.isPrefixOf l then
    match findIDSuffix (l.drop createdLit.length) with
    | some post => some (parseDigits (post.takeWhile Char.isDigit))
    | none => none
  else none

/-- The `for line in result.splitlines()` loop body: return the parsed ID
of the first matching line. -/
def findWorkunitID : List (List Char) → Option Nat
  | [] => none
  | l :: rest =>
    match matchCreatedLine l with
    | some n => some n
    | none => findWorkunitID rest

/-- The part of `submit_job` that runs after the seed file is determined:
stage the command line under prefix `cmdline`, invoke `bin/create_work`
with the seed path and the command file's basename, and translate its
result. A non-zero exit raises `BoincError('create_work returned error: …')`;
a zero exit without a matching output line raises
`BoincError('Could not find ID in create_work output: …')`. -/
def submitWithSeed (hash : List Nat → String) (oracle : String → String)
    (tool : List String → ToolResult) (fs : FS) (appname cmdline seed_file : String) :
    Except Err (Nat × FS) :=
  let cmd_contents := encodeUtf8 cmdline
  match stage_file hash oracle fs "cmdline" cmd_contents with
  | .error e => .error e
  | .ok (cmd_path, fs1) =>
    let cmd_file := basename cmd_path
    let result := tool ["bin/create_work", "--appname", appname, "--verbose",
                        seed_file, cmd_file]
    if result.exitCode ≠ 0 then
      .error (.boincError ("create_work returned error: " ++ result.output))
    else
      match findWorkunitID (splitLines result.output.data) with
      | some n => .ok (n, fs1)
      | none =>
        .error (.boincError ("Could not find ID in create_work output: " ++ result.output))

/-- `submit_job(appname, cmdline, seed_file=None, seed_contents=None)`.
Seed validation follows Python truthiness: if both arguments are truthy,
raise `InternalError('Only one of seed_file and seed_contents can be
specified')`; if `seed_contents` is truthy, stage it under prefix `input`
to obtain the seed path; otherwise, if `seed_file` is falsy, raise
`InternalError('No seed specified')`; otherwise use `seed_file` as given. -/
def submit_job (hash : List Nat → String) (oracle : String → String)
    (tool : List String → ToolResult) (fs : FS) (appname cmdline : String)
    (seed_file : Option String) (seed_contents : Option (List Nat)) :
    Except Err (Nat × FS) :=
  if truthyStr seed_file && truthyBytes seed_contents then
    .error (.internalError "Only one of seed_file and seed_contents can be specified")
  else if truthyBytes seed_contents then
    match stage_file hash oracle fs "input" (seed_contents.getD []) with
    | .error e => .error e
    | .ok (seed_path, fs1) => submitWithSeed hash oracle tool fs1 appname cmdline seed_path
  else if !(truthyStr seed_file) then
    .error (.internalError "No seed specified")
  else
    submitWithSeed hash oracle tool fs appname cmdline (seed_file.getD "")

/-! ### Filesystem lemmas -/

theorem fsLookup_fsWrite_self (fs : FS) (p : String) (c : List Nat)
    (h : fsLookup fs p = none) : fsLookup (fsWrite fs p c) p = some ⟨c, none⟩ := by
  induction fs with
  | nil => simp [fsWrite, fsLookup]
  | cons qf rest ih =>
    obtain ⟨q, f⟩ := qf
    by_cases hq : q = p
    · simp [fsLookup, hq] at h
    · simp only [fsLookup, fsWrite, if_neg hq] at h ⊢
      exact ih h

theorem fsLookup_fsWrite_ne (fs : FS) (p : String) (c : List Nat) (q : String)
    (h : q ≠ p) : fsLookup (fsWrite fs p c) q = fsLookup fs q := by
  induction fs with
  | nil =>
    simp only [fsWrite, fsLookup]
    rw [if_neg (Ne.symm h)]
  | cons rf rest ih =>
    obtain ⟨r, f⟩ := rf
    by_cases hr : r = p
    · subst hr
      simp only [fsWrite, if_pos rfl, fsLookup]
      rw [if_neg (Ne.symm h), if_neg (Ne.symm h)]
    · simp only [fsWrite, if_neg hr, fsLookup]
      by_cases hrq : r = q
      · rw [if_pos hrq, if_pos hrq]
      · rw [if_neg hrq, if_neg hrq]
        exact ih

theorem fsLookup_fsChmod_self (fs : FS) (p : String) (m : Nat) :
    fsLookup (fsChmod fs p m) p =
      (fsLookup fs p).map (fun f => ⟨f.content, some m⟩) := by
  induction fs with
  | nil => simp [fsChmod, fsLookup]
  | cons qf rest ih =>
    obtain ⟨q, f⟩ := qf
    by_cases hq : q = p
    · simp [fsChmod, fsLookup, hq]
    · simp only [fsChmod, if_neg hq, fsLookup, if_neg hq]
      exact ih

theorem fsLookup_fsChmod_ne (fs : FS) (p : String) (m : Nat) (q : String)
    (h : q ≠ p) : fsLookup (fsChmod fs p m) q = fsLookup fs q := by
  induction fs with
  | nil => simp [fsChmod]
  | cons rf rest ih =>
    obtain ⟨r, f⟩ := rf
    by_cases hr : r = p
    · subst hr
      simp only [fsChmod, if_pos rfl, fsLookup]
      rw [if_neg (Ne.symm h), if_neg (Ne.symm h)]
    · simp only [fsChmod, if_neg hr, fsLookup]
      by_cases hrq : r = q
      · rw [if_pos hrq, if_pos hrq]
      · rw [if_neg hrq, if_neg hrq]
        exact ih

theorem fsLookup_write_chmod (fs : FS) (p : String) (c : List Nat) (m : Nat)
    (h : fsLookup fs p = none) :
    fsLookup (fsChmod (fsWrite fs p c) p m) p = some ⟨c, some m⟩ := by
  rw [fsLookup_fsChmod_self, fsLookup_fsWrite_self fs p c h]
  rfl

/-! ### Unfolding lemmas for `stage_file` -/

theorem stage_file_exists_eq (hash : List Nat → String) (oracle : String → String)
    (fs : FS) (pre : String) (contents : List Nat) (f : FSFile)
    (hlk : fsLookup fs (oracle (_filename_for_contents hash pre contents)) = some f) :
    stage_file hash oracle fs pre contents =
      if f.content ≠ contents then
        .error (.internalError ("Attempted to stage " ++
          _filename_for_contents hash pre contents ++ " with differing contents"))
      else
        .ok (oracle (_filename_for_contents hash pre contents), fs) := by
  simp only [stage_file]
  rw [hlk]

theorem stage_file_not_exists_eq (hash : List Nat → String) (oracle : String → String)
    (fs : FS) (pre : String) (contents : List Nat)
    (hlk : fsLookup fs (oracle (_filename_for_contents hash pre contents)) = none) :
    stage_file hash oracle fs pre contents =
      .ok (oracle (_filename_for_contents hash pre contents),
        fsChmod
          (fsWrite fs (oracle (_filename_for_contents hash pre contents)) contents)
          (oracle (_filename_for_contents hash pre contents)) 493) := by
  simp only [stage_file]
  rw [hlk]

/-! ### Claims about `stage_file` -/

/-- C1: staging is idempotent. If `stage_file hash oracle fs pre contents`
succeeded, returning path `p` and filesystem `fs1`, then staging the same
`(pre, contents)` again on `fs1` returns the same path `p` and leaves the
filesystem exactly `fs1`: the second call only reads and compares the
existing file, performing no write. -/
theorem stage_file_idempotent (hash : List Nat → String) (oracle : String → String)
    (fs : FS) (pre : String) (contents : List Nat) (p : String) (fs1 : FS)
    (h1 : stage_file hash oracle fs pre contents = .ok (p, fs1)) :
    stage_file hash oracle fs1 pre contents = .ok (p, fs1) := by
  rcases hlk : fsLookup fs (oracle (_filename_for_contents hash pre contents)) with _ | f
  · rw [stage_file_not_exists_eq hash oracle fs pre contents hlk,
      Except.ok.injEq, Prod.mk.injEq] at h1
    obtain ⟨hp, hfs⟩ := h1
    subst hfs
    rw [stage_file_exists_eq hash oracle _ pre contents _
        (fsLookup_write_chmod fs _ contents 493 hlk),
      if_neg (by simp), hp]
  · rw [stage_file_exists_eq hash oracle fs pre contents f hlk] at h1
    by_cases hc : f.content = contents
    · rw [if_neg (by simp [hc]), Except.ok.injEq, Prod.mk.injEq] at h1
      obtain ⟨hp, hfs⟩ := h1
      subst hfs
      rw [stage_file_exists_eq hash oracle fs pre contents f hlk,
        if_neg (by simp [hc]), hp]
    · rw [if_pos hc] at h1
      exact absurd h1 (by simp)

/-- Witness for C1 at a concrete input: staging `[1, 2]` under prefix `p`
on the filesystem produced by a first successful staging is a no-op
returning the same path. -/
theorem stage_file_idempotent_witness :
    stage_file (fun _ => "h") (fun fn => "/d/" ++ fn)
      [("/d/p_h", ⟨[1, 2], some 493⟩)] "p" [1, 2] =
      .ok ("/d/p_h", [("/d/p_h", ⟨[1, 2], some 493⟩)]) :=
  stage_file_idempotent (fun _ => "h") (fun fn => "/d/" ++ fn) [] "p" [1, 2]
    "/d/p_h" [("/d/p_h", ⟨[1, 2], some 493⟩)] rfl

/-- C2: consistency check. If a file already exists at the resolved path
and its bytes differ from `contents`, `stage_file` fails with
`InternalError` whose message names the derived filename; no `.ok` result
(and hence no modified filesystem) is produced, so the existing file is
left unchanged rather than overwritten. -/
theorem stage_file_consistency (hash : List Nat → String) (oracle : String → String)
    (fs : FS) (pre : String) (contents : List Nat) (f : FSFile)
    (hex : fsLookup fs (oracle (_filename_for_contents hash pre contents)) = some f)
    (hne : f.content ≠ contents) :
    stage_file hash oracle fs pre contents =
      .error (.internalError ("Attempted to stage " ++
        _filename_for_contents hash pre contents ++ " with differing contents")) := by
  rw [stage_file_exists_eq hash oracle fs pre contents f hex, if_pos hne]

/-- Witness for C2 at a concrete input: the path resolved for prefix `p`
holds `[0]`, staging `[1]` there fails naming the filename `p_h`. -/
theorem stage_file_consistency_witness :
    stage_file (fun _ => "h") (fun fn => "/d/" ++ fn)
      [("/d/p_h", ⟨[0], none⟩)] "p" [1] =
      .error (.internalError ("Attempted to stage " ++
        _filename_for_contents (fun _ => "h") "p" [1] ++ " with differing contents")) :=
  stage_file_consistency (fun _ => "h") (fun fn => "/d/" ++ fn)
    [("/d/p_h", ⟨[0], none⟩)] "p" [1] ⟨[0], none⟩ rfl (by decide)

/-- C8: write-once invariant. Every `stage_file` call either (a) creates a
file at a previously empty resolved path (writing `contents` there and
chmodding it), or (b) returns with the filesystem entirely unchanged, or
(c) fails with an `InternalError`, which carries no filesystem at all.
In particular a file at the resolved path, once created, is never changed
by any later call. -/
theorem stage_file_write_once (hash : List Nat → String) (oracle : String → String)
    (fs : FS) (pre : String) (contents : List Nat) :
    (fsLookup fs (oracle (_filename_for_contents hash pre contents)) = none ∧
      stage_file hash oracle fs pre contents =
        .ok (oracle (_filename_for_contents hash pre contents),
          fsChmod
            (fsWrite fs (oracle (_filename_for_contents hash pre contents)) contents)
            (oracle (_filename_for_contents hash pre contents)) 493)) ∨
    stage_file hash oracle fs pre contents =
      .ok (oracle (_filename_for_contents hash pre contents), fs) ∨
    (∃ msg, stage_file hash oracle fs pre contents = .error (.internalError msg)) := by
  rcases hlk : fsLookup fs (oracle (_filename_for_contents hash pre contents)) with _ | f
  · exact Or.inl ⟨rfl, stage_file_not_exists_eq hash oracle fs pre contents hlk⟩
  · by_cases hc : f.content = contents
    · exact Or.inr (Or.inl (by
        rw [stage_file_exists_eq hash oracle fs pre contents f hlk, if_neg (by simp [hc])]))
    · exact Or.inr (Or.inr ⟨_, by
        rw [stage_file_exists_eq hash oracle fs pre contents f hlk, if_pos hc]⟩)

/-- C9: staging at a previously empty resolved path writes exactly
`contents` there, sets the file mode to `0o755` (= 493), returns the
resolved absolute path, and touches no other path. -/
theorem stage_file_new (hash : List Nat → String) (oracle : String → String)
    (fs : FS) (pre : String) (contents : List Nat)
    (hnone : fsLookup fs (oracle (_filename_for_contents hash pre contents)) = none) :
    stage_file hash oracle fs pre contents =
      .ok (oracle (_filename_for_contents hash pre contents),
        fsChmod
          (fsWrite fs (oracle (_filename_for_contents hash pre contents)) contents)
          (oracle (_filename_for_contents hash pre contents)) 493) ∧
    fsLookup
      (fsChmod
        (fsWrite fs (oracle (_filename_for_contents hash pre contents)) contents)
        (oracle (_filename_for_contents hash pre contents)) 493)
      (oracle (_filename_for_contents hash pre contents)) =
      some ⟨contents, some 493⟩ ∧
    (∀ q, q ≠ oracle (_filename_for_contents hash pre contents) →
      fsLookup
        (fsChmod
          (fsWrite fs (oracle (_filename_for_contents hash pre contents)) contents)
          (oracle (_filename_for_contents hash pre contents)) 493) q = fsLookup fs q) := by
  refine ⟨stage_file_not_exists_eq hash oracle fs pre contents hnone,
    fsLookup_write_chmod fs _ contents 493 hnone, ?_⟩
  intro q hq
  rw [fsLookup_fsChmod_ne _ _ _ _ hq, fsLookup_fsWrite_ne _ _ _ _ hq]

/-- Witness for C9 at a concrete input: staging `[7]` under prefix `p` on
the empty filesystem creates `/d/p_h` with content `[7]` and mode 493. -/
theorem stage_file_new_witness :
    stage_file (fun _ => "h") (fun fn => "/d/" ++ fn) [] "p" [7] =
      .ok ("/d/p_h", fsChmod (fsWrite [] "/d/p_h" [7]) "/d/p_h" 493) ∧
    fsLookup (fsChmod (fsWrite [] "/d/p_h" [7]) "/d/p_h" 493) "/d/p_h" =
      some ⟨[7], some 493⟩ :=
  ⟨(stage_file_new (fun _ => "h") (fun fn => "/d/" ++ fn) [] "p" [7] rfl).1,
   (stage_file_new (fun _ => "h") (fun fn => "/d/" ++ fn) [] "p" [7] rfl).2.1⟩

/-! ### Lemmas about `afterLastSep` and the path helpers -/

theorem isPrefixOf_append_drop : ∀ (a l : List Char), a.isPrefixOf l = true →
    l = a ++ l.drop a.length := by
  intro a
  induction a with
  | nil => intro l _; simp
  | cons x xs ih =>
    intro l h
    cases l with
    | nil => simp [List.isPrefixOf] at h
    | cons y ys =>
      simp only [List.isPrefixOf, Bool.and_eq_true, beq_iff_eq] at h
      obtain ⟨h1, h2⟩ := h
      subst h1
      simp only [List.length_cons, List.drop_succ_cons, List.cons_append, List.cons.injEq]
      exact ⟨trivial, ih ys h2⟩

theorem isPrefixOf_self_append : ∀ (a t : List Char), a.isPrefixOf (a ++ t) = true := by
  intro a
  induction a with
  | nil => intro t; simp [List.isPrefixOf]
  | cons x xs ih => intro t; simp [List.isPrefixOf, ih]

theorem afterLastSep_some (sep : List Char) :
    ∀ (s r : List Char), afterLastSep sep s = some r → ∃ p, s = p ++ sep ++ r := by
  intro s
  induction s with
  | nil => intro r h; simp [afterLastSep] at h
  | cons c rest ih =>
    intro r h
    simp only [afterLastSep] at h
    split at h
    · rename_i r' heq
      obtain ⟨p, hp⟩ := ih r' heq
      injection h with h'
      subst h'
      exact ⟨c :: p, by rw [hp]; simp⟩
    · split at h
      · rename_i hpre
        injection h with h'
        refine ⟨[], ?_⟩
        rw [← h']
        simpa using isPrefixOf_append_drop sep (c :: rest) hpre
      · exact absurd h (by simp)

theorem afterLastSep_none (sep : List Char) (hsep : sep ≠ []) :
    ∀ s, afterLastSep sep s = none → ∀ p q, s ≠ p ++ sep ++ q := by
  intro s
  induction s with
  | nil =>
    intro _ p q hc
    have hlen := congrArg List.length hc
    simp only [List.length_nil, List.length_append] at hlen
    exact hsep (List.length_eq_zero.mp (by omega))
  | cons c rest ih =>
    intro h p q hc
    simp only [afterLastSep] at h
    split at h
    · exact absurd h (by simp)
    · rename_i heq
      cases p with
      | nil =>
        have hpre : sep.isPrefixOf (c :: rest) = true := by
          rw [show c :: rest = sep ++ q from by simpa using hc]
          exact isPrefixOf_self_append sep q
        rw [if_pos hpre] at h
        exact absurd h (by simp)
      | cons a p' =>
        have hrest : rest = p' ++ sep ++ q := by
          have h2 := hc
          simp only [List.cons_append, List.cons.injEq, List.append_assoc] at h2 ⊢
          simpa using h2.2
        exact ih heq p' q hrest

/-! ### Claim about `clean_download_path` -/

/-- C7: path relativization. If the marker segment `/download/` occurs
nowhere in `path`, `clean_download_path` returns the input unchanged; if
it occurs, the result is the remainder after an occurrence of the marker
(Python's `rpartition` strips up to and including the last one). -/
theorem clean_download_path_marker (path : String) :
    ((∀ p q : List Char, path.data ≠ p ++ marker ++ q) →
      clean_download_path path = path) ∧
    ((∃ p q : List Char, path.data = p ++ marker ++ q) →
      ∃ p : List Char, path.data = p ++ marker ++ (clean_download_path path).data) := by
  constructor
  · intro hno
    cases hal : afterLastSep marker path.data with
    | none =>
      unfold clean_download_path
      rw [hal]
    | some r =>
      obtain ⟨p, hp⟩ := afterLastSep_some marker path.data r hal
      exact absurd hp (hno p r)
  · rintro ⟨p, q, hpq⟩
    cases hal : afterLastSep marker path.data with
    | none => exact absurd hpq (afterLastSep_none marker (by decide) path.data hal p q)
    | some r =>
      obtain ⟨p', hp'⟩ := afterLastSep_some marker path.data r hal
      have hcl : clean_download_path path = ⟨r⟩ := by
        unfold clean_download_path
        rw [hal]
      rw [hcl]
      exact ⟨p', hp'⟩

/-- Witness for C7 at concrete inputs: a path without the marker is
returned unchanged, and a path with the marker is split after it. -/
theorem clean_download_path_marker_witness :
    clean_download_path "/a/b" = "/a/b" ∧
    ∃ p : List Char,
      "/proj/download/x".data = p ++ marker ++ (clean_download_path "/proj/download/x").data :=
  ⟨(clean_download_path_marker "/a/b").1
      (afterLastSep_none marker (by decide) "/a/b".data rfl),
   (clean_download_path_marker "/proj/download/x").2 ⟨"/proj".data, "x".data, by decide⟩⟩

/-! ### Claim about `get_filename` -/

/-- C6 counterexample: `get_filename` is not the internal filename helper;
it applies the placement oracle, so for the oracle `fn ↦ "/store/" ++ fn`
and the digest function constantly `"abc"`, `get_filename` on prefix `p`
and the digest of `[1]` differs from the internal filename `p_abc` of
`stage_file`. -/
theorem get_filename_counterexample :
    get_filename (fun fn => "/store/" ++ fn) "p" ((fun _ : List Nat => "abc") [1]) ≠
      _filename_for_contents (fun _ : List Nat => "abc") "p" [1] := by
  decide

/-- C6 (amended): `get_filename pre h` reproduces the naming scheme and
then resolves it through the placement oracle, so it equals the oracle
applied to the internal filename, and it equals the absolute path that a
successful `stage_file pre contents` returns (round-trip at the path
level, not the filename level). -/
theorem get_filename_stage_file (hash : List Nat → String) (oracle : String → String)
    (pre : String) (contents : List Nat) :
    get_filename oracle pre (hash contents) =
      oracle (_filename_for_contents hash pre contents) ∧
    (∀ (fs : FS) (p : String) (fs1 : FS),
      stage_file hash oracle fs pre contents = .ok (p, fs1) →
      p = get_filename oracle pre (hash contents)) := by
  refine ⟨rfl, ?_⟩
  intro fs p fs1 h
  rcases hlk : fsLookup fs (oracle (_filename_for_contents hash pre contents)) with _ | f
  · rw [stage_file_not_exists_eq hash oracle fs pre contents hlk,
      Except.ok.injEq, Prod.mk.injEq] at h
    exact h.1.symm
  · rw [stage_file_exists_eq hash oracle fs pre contents f hlk] at h
    by_cases hc : f.content = contents
    · rw [if_neg (by simp [hc]), Except.ok.injEq, Prod.mk.injEq] at h
      exact h.1.symm
    · rw [if_pos hc] at h
      exact absurd h (by simp)

/-- Witness for C6 (amended) at a concrete input. -/
theorem get_filename_stage_file_witness :
    get_filename (fun fn => "/d/" ++ fn) "p" ((fun _ : List Nat => "h") [5]) =
      (fun fn => "/d/" ++ fn) (_filename_for_contents (fun _ : List Nat => "h") "p" [5]) ∧
    "/d/p_h" = get_filename (fun fn => "/d/" ++ fn) "p" ((fun _ : List Nat => "h") [5]) :=
  ⟨(get_filename_stage_file (fun _ => "h") (fun fn => "/d/" ++ fn) "p" [5]).1,
   (get_filename_stage_file (fun _ => "h") (fun fn => "/d/" ++ fn) "p" [5]).2
     [] "/d/p_h" (fsChmod (fsWrite [] "/d/p_h" [5]) "/d/p_h" 493) rfl⟩

/-! ### Lemmas about `submit_job` -/

theorem truthyStr_some_ne (s : String) (h : s ≠ "") : truthyStr (some s) = true := by
  simp only [truthyStr, Bool.not_eq_true']
  rw [Bool.eq_false_iff]
  intro hh
  exact h ((String.isEmpty_iff s).mp hh)

theorem truthyBytes_some_ne (b : List Nat) (h : b ≠ []) : truthyBytes (some b) = true := by
  cases b with
  | nil => exact absurd rfl h
  | cons x xs => rfl

/-- Reduction of `submit_job` when `seed_file` is truthy and `seed_contents`
is falsy: the seed file is used as given and submission proceeds. -/
theorem submit_job_seedfile_eq (hash : List Nat → String) (oracle : String → String)
    (tool : List String → ToolResult) (fs : FS) (appname cmdline sf : String)
    (sc : Option (List Nat)) (hsf : sf ≠ "") (hsc : truthyBytes sc = false) :
    submit_job hash oracle tool fs appname cmdline (some sf) sc =
      submitWithSeed hash oracle tool fs appname cmdline sf := by
  simp only [submit_job]
  rw [if_neg (by simp [hsc]), if_neg (by simp [hsc]),
    if_neg (by simp [truthyStr_some_ne sf hsf])]
  rfl

/-- Reduction of `submitWithSeed` once the cmdline staging result is known. -/
theorem submitWithSeed_ok_eq (hash : List Nat → String) (oracle : String → String)
    (tool : List String → ToolResult) (fs : FS) (appname cmdline seed_file : String)
    (cmd_path : String) (fs1 : FS)
    (hst : stage_file hash oracle fs "cmdline" (encodeUtf8 cmdline) = .ok (cmd_path, fs1)) :
    submitWithSeed hash oracle tool fs appname cmdline seed_file =
      (if (tool ["bin/create_work", "--appname", appname, "--verbose",
            seed_file, basename cmd_path]).exitCode ≠ 0 then
        .error (.boincError ("create_work returned error: " ++
          (tool ["bin/create_work", "--appname", appname, "--verbose",
            seed_file, basename cmd_path]).output))
      else
        match findWorkunitID (splitLines
            (tool ["bin/create_work", "--appname", appname, "--verbose",
              seed_file, basename cmd_path]).output.data) with
        | some n => .ok (n, fs1)
        | none =>
          .error (.boincError ("Could not find ID in create_work output: " ++
            (tool ["bin/create_work", "--appname", appname, "--verbose",
              seed_file, basename cmd_path]).output))) := by
  simp only [submitWithSeed]
  rw [hst]

/-- The scan of `findWorkunitID` returns the value parsed from the first
matching line. -/
theorem findWorkunitID_first (lines : List (List Char)) :
    ∀ (i n : Nat), i < lines.length →
    (∀ j, j < i → matchCreatedLine (lines.getD j []) = none) →
    matchCreatedLine (lines.getD i []) = some n →
    findWorkunitID lines = some n := by
  induction lines with
  | nil => intro i n hi; simp at hi
  | cons l rest ih =>
    intro i n hi hbef hm
    cases i with
    | zero =>
      simp only [List.getD_cons_zero] at hm
      simp only [findWorkunitID]
      rw [hm]
    | succ i' =>
      have h0 := hbef 0 (Nat.succ_pos i')
      simp only [List.getD_cons_zero] at h0
      simp only [findWorkunitID]
      rw [h0]
      refine ih i' n (by simpa using hi) ?_ (by simpa using hm)
      intro j hj
      have := hbef (j + 1) (by omega)
      simpa using this

/-- The two tool-failure messages of `submit_job` are never equal: they
start with different literals. -/
theorem submit_failure_messages_distinct (out : String) :
    ("create_work returned error: " ++ out) ≠
      ("Could not find ID in create_work output: " ++ out) := by
  cases out with
  | mk l =>
    intro h
    have h2 : ("create_work returned error: " ++ String.mk l).data.head? =
        ("Could not find ID in create_work output: " ++ String.mk l).data.head? := by
      rw [h]
    have e1 : ("create_work returned error: " ++ String.mk l).data.head? = some 'c' := rfl
    have e2 : ("Could not find ID in create_work output: " ++ String.mk l).data.head? =
        some 'C' := rfl
    rw [e1, e2] at h2
    simp at h2

/-! ### Claims about `submit_job` -/

/-- C3: seed mutual exclusivity. With both seed forms supplied (truthy),
`submit_job` raises `InternalError('Only one of seed_file and
seed_contents can be specified')`; with neither supplied it raises
`InternalError('No seed specified')`; the two messages are distinct. The
result is this error for every `hash`, `oracle`, `tool` and filesystem,
so no staging occurs and no subprocess is invoked. -/
theorem submit_job_seed_validation (hash : List Nat → String) (oracle : String → String)
    (tool : List String → ToolResult) (fs : FS) (appname cmdline : String) :
    (∀ (sf : String) (sc : List Nat), sf ≠ "" → sc ≠ [] →
      submit_job hash oracle tool fs appname cmdline (some sf) (some sc) =
        .error (.internalError "Only one of seed_file and seed_contents can be specified")) ∧
    submit_job hash oracle tool fs appname cmdline none none =
      .error (.internalError "No seed specified") ∧
    ("Only one of seed_file and seed_contents can be specified" : String) ≠
      "No seed specified" := by
  refine ⟨?_, rfl, by decide⟩
  intro sf sc hsf hsc
  simp only [submit_job]
  rw [if_pos (by rw [truthyStr_some_ne sf hsf, truthyBytes_some_ne sc hsc]; rfl)]

/-- Witness for C3 at concrete inputs. -/
theorem submit_job_seed_validation_witness :
    submit_job (fun _ => "h") (fun fn => fn) (fun _ => ⟨0, ""⟩) [] "a" "r"
      (some "s") (some [1]) =
      .error (.internalError "Only one of seed_file and seed_contents can be specified") ∧
    submit_job (fun _ => "h") (fun fn => fn) (fun _ => ⟨0, ""⟩) [] "a" "r" none none =
      .error (.internalError "No seed specified") :=
  ⟨(submit_job_seed_validation (fun _ => "h") (fun fn => fn) (fun _ => ⟨0, ""⟩)
      [] "a" "r").1 "s" [1] (by decide) (by decide),
   (submit_job_seed_validation (fun _ => "h") (fun fn => fn) (fun _ => ⟨0, ""⟩)
      [] "a" "r").2.1⟩

/-- C10: seed presence is judged by Python truthiness, not by a tagged
choice. `seed_contents = b''` with no `seed_file` hits the "No seed
specified" error; `seed_file` together with `seed_contents = b''` raises
no mutual-exclusivity error — the seed file is used and submission
proceeds as `submitWithSeed`. -/
theorem submit_job_truthiness (hash : List Nat → String) (oracle : String → String)
    (tool : List String → ToolResult) (fs : FS) (appname cmdline : String) :
    submit_job hash oracle tool fs appname cmdline none (some []) =
      .error (.internalError "No seed specified") ∧
    (∀ sf : String, sf ≠ "" →
      submit_job hash oracle tool fs appname cmdline (some sf) (some []) =
        submitWithSeed hash oracle tool fs appname cmdline sf) := by
  refine ⟨rfl, ?_⟩
  intro sf hsf
  exact submit_job_seedfile_eq hash oracle tool fs appname cmdline sf (some []) hsf rfl

/-- Witness for C10 at concrete inputs. -/
theorem submit_job_truthiness_witness :
    submit_job (fun _ => "h") (fun fn => fn) (fun _ => ⟨0, ""⟩) [] "a" "r"
      none (some []) = .error (.internalError "No seed specified") ∧
    submit_job (fun _ => "h") (fun fn => fn) (fun _ => ⟨0, ""⟩) [] "a" "r"
      (some "s") (some []) =
      submitWithSeed (fun _ => "h") (fun fn => fn) (fun _ => ⟨0, ""⟩) [] "a" "r" "s" :=
  ⟨(submit_job_truthiness (fun _ => "h") (fun fn => fn) (fun _ => ⟨0, ""⟩) [] "a" "r").1,
   (submit_job_truthiness (fun _ => "h") (fun fn => fn) (fun _ => ⟨0, ""⟩) [] "a" "r").2
     "s" (by decide)⟩

/-- C4: happy-path output parsing. With inline seed contents, successful
staging of seed and cmdline, and the tool exiting 0, `submit_job` scans
the output lines in order and returns, from the first line matching
`created workunit; .*, ID ([0-9]+)`, the digits parsed as the work-unit
ID, together with the filesystem after both stagings. -/
theorem submit_job_happy_path (hash : List Nat → String) (oracle : String → String)
    (tool : List String → ToolResult) (fs : FS) (appname cmdline : String)
    (sc : List Nat) (seed_path : String) (fs1 : FS) (cmd_path : String) (fs2 : FS)
    (out : String) (i n : Nat)
    (hsc : sc ≠ [])
    (hst1 : stage_file hash oracle fs "input" sc = .ok (seed_path, fs1))
    (hst2 : stage_file hash oracle fs1 "cmdline" (encodeUtf8 cmdline) = .ok (cmd_path, fs2))
    (htool : tool ["bin/create_work", "--appname", appname, "--verbose",
      seed_path, basename cmd_path] = ⟨0, out⟩)
    (hi : i < (splitLines out.data).length)
    (hbef : ∀ j, j < i → matchCreatedLine ((splitLines out.data).getD j []) = none)
    (hm : matchCreatedLine ((splitLines out.data).getD i []) = some n) :
    submit_job hash oracle tool fs appname cmdline none (some sc) = .ok (n, fs2) := by
  have hec : (tool ["bin/create_work", "--appname", appname, "--verbose",
      seed_path, basename cmd_path]).exitCode = 0 := by rw [htool]
  have hout : (tool ["bin/create_work", "--appname", appname, "--verbose",
      seed_path, basename cmd_path]).output = out := by rw [htool]
  simp only [submit_job]
  rw [if_neg (by simp [truthyStr]), if_pos (truthyBytes_some_ne sc hsc)]
  simp only [Option.getD_some]
  rw [hst1]
  show submitWithSeed hash oracle tool fs1 appname cmdline seed_path = .ok (n, fs2)
  rw [submitWithSeed_ok_eq hash oracle tool fs1 appname cmdline seed_path cmd_path fs2 hst2,
    hout, if_neg (by rw [hec]; simp),
    findWorkunitID_first (splitLines out.data) i n hi hbef hm]

/-- Witness for C4: a stubbed tool exiting 0 with output
`created workunit; foo bar, ID 42` makes `submit_job` return ID 42. -/
theorem submit_job_happy_path_witness :
    submit_job (fun _ => "h") (fun fn => "/d/" ++ fn)
      (fun _ => ⟨0, "created workunit; foo bar, ID 42"⟩) [] "myapp" "run.sh"
      none (some [115]) =
      .ok (42, [("/d/input_h", ⟨[115], some 493⟩),
                ("/d/cmdline_h", ⟨encodeUtf8 "run.sh", some 493⟩)]) :=
  submit_job_happy_path (fun _ => "h") (fun fn => "/d/" ++ fn)
    (fun _ => ⟨0, "created workunit; foo bar, ID 42"⟩) [] "myapp" "run.sh"
    [115] "/d/input_h" [("/d/input_h", ⟨[115], some 493⟩)] "/d/cmdline_h"
    [("/d/input_h", ⟨[115], some 493⟩), ("/d/cmdline_h", ⟨encodeUtf8 "run.sh", some 493⟩)]
    "created workunit; foo bar, ID 42" 0 42
    (by decide) rfl rfl rfl (by decide) (fun j hj => absurd hj (by omega)) (by decide)

/-- C5 counterexample: with a seed file given, a stubbed tool exiting 1
with output `disk full` and a stubbed tool exiting 0 with output
`ok, nothing created` both make `submit_job` fail with an error of the
same Python class `BoincError`: the two failures are not distinct error
kinds, only their messages differ. -/
theorem submit_job_failure_kinds_counterexample :
    submit_job (fun _ => "h") (fun fn => "/d/" ++ fn)
      (fun _ => ⟨1, "disk full"⟩) [] "a" "r" (some "s") none =
      .error (.boincError "create_work returned error: disk full") ∧
    submit_job (fun _ => "h") (fun fn => "/d/" ++ fn)
      (fun _ => ⟨0, "ok, nothing created"⟩) [] "a" "r" (some "s") none =
      .error (.boincError "Could not find ID in create_work output: ok, nothing created") ∧
    Err.kind (.boincError "create_work returned error: disk full") =
      Err.kind (.boincError "Could not find ID in create_work output: ok, nothing created") :=
  ⟨rfl, rfl, rfl⟩

/-- C5 (amended): when the tool exits non-zero `submit_job` fails with
`BoincError('create_work returned error: …')` carrying the captured
output; when it exits zero with no matching line it fails with
`BoincError('Could not find ID in create_work output: …')` carrying the
full output. Both failures are of the same class `BoincError`; they are
distinguishable by their messages, which are never equal. -/
theorem submit_job_tool_failures (hash : List Nat → String) (oracle : String → String)
    (tool : List String → ToolResult) (fs : FS) (appname cmdline sf : String)
    (cmd_path : String) (fs1 : FS) (out : String) (ec : Nat)
    (hsf : sf ≠ "")
    (hst : stage_file hash oracle fs "cmdline" (encodeUtf8 cmdline) = .ok (cmd_path, fs1))
    (htool : tool ["bin/create_work", "--appname", appname, "--verbose",
      sf, basename cmd_path] = ⟨ec, out⟩) :
    (ec ≠ 0 →
      submit_job hash oracle tool fs appname cmdline (some sf) none =
        .error (.boincError ("create_work returned error: " ++ out))) ∧
    (ec = 0 → findWorkunitID (splitLines out.data) = none →
      submit_job hash oracle tool fs appname cmdline (some sf) none =
        .error (.boincError ("Could not find ID in create_work output: " ++ out))) ∧
    ("create_work returned error: " ++ out) ≠
      ("Could not find ID in create_work output: " ++ out) := by
  have hec : (tool ["bin/create_work", "--appname", appname, "--verbose",
      sf, basename cmd_path]).exitCode = ec := by rw [htool]
  have hout : (tool ["bin/create_work", "--appname", appname, "--verbose",
      sf, basename cmd_path]).output = out := by rw [htool]
  have hred := submit_job_seedfile_eq hash oracle tool fs appname cmdline sf none hsf rfl
  have hunf := submitWithSeed_ok_eq hash oracle tool fs appname cmdline sf cmd_path fs1 hst
  refine ⟨?_, ?_, submit_failure_messages_distinct out⟩
  · intro hne
    rw [hred, hunf, hout, if_pos (by rw [hec]; exact hne)]
  · intro he0 hnone
    rw [hred, hunf, hout, if_neg (by rw [hec, he0]; simp), hnone]

/-- Witness for C5 (amended) at concrete inputs: both failure branches,
each with its message. -/
theorem submit_job_tool_failures_witness :
    submit_job (fun _ => "h") (fun fn => "/d/" ++ fn)
      (fun _ => ⟨1, "disk full"⟩) [] "a" "r" (some "s") none =
      .error (.boincError ("create_work returned error: " ++ "disk full")) ∧
    submit_job (fun _ => "h") (fun fn => "/d/" ++ fn)
      (fun _ => ⟨0, "ok, nothing created"⟩) [] "a" "r" (some "s") none =
      .error (.boincError ("Could not find ID in create_work output: " ++
        "ok, nothing created")) :=
  ⟨(submit_job_tool_failures (fun _ => "h") (fun fn => "/d/" ++ fn)
      (fun _ => ⟨1, "disk full"⟩) [] "a" "r" "s" "/d/cmdline_h"
      [("/d/cmdline_h", ⟨encodeUtf8 "r", some 493⟩)] "disk full" 1
      (by decide) rfl rfl).1 (by decide),
   (submit_job_tool_failures (fun _ => "h") (fun fn => "/d/" ++ fn)
      (fun _ => ⟨0, "ok, nothing created"⟩) [] "a" "r" "s" "/d/cmdline_h"
      [("/d/cmdline_h", ⟨encodeUtf8 "r", some 493⟩)] "ok, nothing created" 0
      (by decide) rfl rfl).2.1 rfl (by decide)⟩

end Killerbeez
